import Mathlib

/-!
Shallow embedding of the target-resolution and capability-inference layer of
the dali-cli client (src/dalicli/api.py and src/dalicli/cli.py).

Loosely-typed JSON fields of the Python records are modelled with small
inductive entry types: an entry is either the shape the code inspects with
isinstance checks (an integer, a dict, a string) or an opaque "other" value
that the code discards or skips.  Network calls are modelled by a Transport
record: a None response models a requests.RequestException.
-/

namespace DaliCli

/-- A primitive JSON value as inspected by isinstance(v, int) checks:
either an integer (which in Python includes booleans) or anything else. -/
inductive JPrim where
  | pint (n : Int)
  | pother
  deriving DecidableEq, Repr

/-- One raw entry of a device's scenes list: a bare integer, a dict
(modelled as an association list of string keys to primitive values), or
any other JSON value (discarded by the code). -/
inductive SceneEntry where
  | sint (n : Int)
  | sobj (kvs : List (String × JPrim))
  | sother
  deriving DecidableEq, Repr

/-- One raw entry of a device's groups list: an entry on which Python's
int(g) succeeds (yielding n), or one on which int(g) raises. -/
inductive GEntry where
  | gint (n : Int)
  | gbad
  deriving DecidableEq, Repr

/-- One raw entry of a device's daliTypes list: an integer entry or a
non-integer entry (discarded by the isinstance(x, int) filter). -/
inductive DEntry where
  | dint (n : Int)
  | dother
  deriving DecidableEq, Repr

/-- A device record, restricted to the fields the resolution and
classification code reads.  An Option field is none when the key is missing,
null, or (for id/line/address) not an integer; groups and scenes model
`d.get(k) or []` so a missing/null list is the empty list. -/
structure Device where
  id : Option Int
  line : Option Int
  address : Option Int
  groups : List GEntry
  scenes : List SceneEntry
  daliTypes : Option (List DEntry)
  deriving DecidableEq, Repr

/-- One raw entry of a zone's targets list: a dict with optional "type"
string and optional integer "id" (none models a missing or non-integer id),
or a non-dict entry which the code skips. -/
inductive TargetEntry where
  | tdict (ttype : Option String) (tid : Option Int)
  | tother
  deriving DecidableEq, Repr

/-- A zone record, restricted to the fields the resolution code reads. -/
structure Zone where
  name : Option String
  targets : List TargetEntry
  deriving DecidableEq, Repr

/-- The remote controller as consumed by the resolver.  devicesResp models
`get_devices()["devices"]` (none is a RequestException, a malformed body
without the wrapper key is the empty list); deviceResp models
`get_device(id)` (none is a RequestException). -/
structure Transport where
  devicesResp : Option (List Device)
  deviceResp : Int → Option Device

/-- Lowercasing as used by the .lower() calls in the source. -/
def strLower (s : String) : String :=
  ⟨s.data.map Char.toLower⟩

/-- Whitespace stripping as used by the .strip() call in the source. -/
def strTrim (s : String) : String :=
  ⟨(((s.data.dropWhile Char.isWhitespace).reverse).dropWhile Char.isWhitespace).reverse⟩

/-- Models `str(zone.get("name") or "").strip().lower() == "broadcast"`. -/
def isBroadcastName (name : Option String) : Bool :=
  strLower (strTrim (name.getD "")) == "broadcast"

/-- Models `(t.get("type") or "").lower()` on a target dict. -/
def normType (ttype : Option String) : String :=
  strLower (ttype.getD "")

/-- True when a target dict has a broadcast-family type name, per the
`t_type in ("broadcast", "all")` test in the source. -/
def isBroadcastTarget : TargetEntry → Bool
  | .tdict ttype _ => normType ttype == "broadcast" || normType ttype == "all"
  | .tother => false

/-- The `if isinstance(t_id, int)` part of the partition loop body: an
integer id lands in the explicit or group bucket according to the
normalized type name, other type names contribute nothing. -/
def partitionIdStep (acc : List Int × List Int × Bool) (ttype : Option String)
    (tid : Option Int) : List Int × List Int × Bool :=
  match tid with
  | some i =>
      if normType ttype = "" ∨ normType ttype = "device" ∨ normType ttype = "default" then
        (acc.1 ++ [i], acc.2.1, acc.2.2)
      else if normType ttype = "group" ∨ normType ttype = "d16group"
          ∨ normType ttype = "dali_group" ∨ normType ttype = "dali-group" then
        (acc.1, acc.2.1 ++ [i], acc.2.2)
      else acc
  | none => acc

/-- The `if t_type in ("broadcast", "all")` part of the partition loop
body, which runs regardless of the id field. -/
def partitionBroadcastStep (acc : List Int × List Int × Bool)
    (ttype : Option String) : List Int × List Int × Bool :=
  if normType ttype = "broadcast" ∨ normType ttype = "all" then
    (acc.1, acc.2.1, true)
  else acc

/-- The target-partitioning loop shared by zone_scene_numbers and
zone_members: accumulates explicit device ids, DALI group ids, and the
broadcast flag, in source order, skipping non-dict entries. -/
def partitionTargets (acc : List Int × List Int × Bool) :
    List TargetEntry → List Int × List Int × Bool
  | [] => acc
  | .tother :: rest => partitionTargets acc rest
  | .tdict ttype tid :: rest =>
      partitionTargets (partitionBroadcastStep (partitionIdStep acc ttype tid) ttype) rest

/-- The three buckets computed for a zone by the partition loop. -/
def zoneBuckets (zone : Zone) : List Int × List Int × Bool :=
  partitionTargets ([], [], isBroadcastName zone.name) zone.targets

/-- The explicit device-id bucket of a zone. -/
def explicitIdsOf (zone : Zone) : List Int :=
  (zoneBuckets zone).1

/-- Outcome of evaluating `any(int(g) in group_ids for g in groups)`:
membership found, no membership, or an int() conversion error (which the
surrounding try/except turns into skipping the device). -/
inductive GroupScan where
  | member
  | nonMember
  | err
  deriving DecidableEq, Repr

/-- Left-to-right evaluation of `any(int(g) in group_ids for g in groups)`
with Python's short-circuiting: the first successful membership wins before
any later conversion error can be raised. -/
def scanGroups (groupIds : List Int) : List GEntry → GroupScan
  | [] => .nonMember
  | .gint n :: rest =>
      if n ∈ groupIds then .member else scanGroups groupIds rest
  | .gbad :: _ => .err

/-! Python dict with int keys, insertion-ordered: an association list.
Updating an existing key keeps its position; a new key is appended. -/

/-- dict assignment d[k] = v with Python's insertion-order semantics. -/
def idxInsert (k : Int) (v : Device) : List (Int × Device) → List (Int × Device)
  | [] => [(k, v)]
  | (k', v') :: rest =>
      if k' = k then (k, v) :: rest else (k', v') :: idxInsert k v rest

/-- dict lookup d.get(k). -/
def lookupIdx : List (Int × Device) → Int → Option Device
  | [], _ => none
  | p :: rest, k => if p.1 = k then some p.2 else lookupIdx rest k

/-- Python `k in d`. -/
def hasKey (td : List (Int × Device)) (k : Int) : Bool :=
  (lookupIdx td k).isSome

/-- The key list of a dict, in insertion order. -/
def keysOf (td : List (Int × Device)) : List Int :=
  td.map Prod.fst

/-! Capability classifier (Client.classify_device). -/

/-- The capability summary returned by Client.classify_device. -/
structure Caps where
  kind : String
  supports_switch : Bool
  supports_dim : Bool
  supports_color : Bool
  deriving DecidableEq, Repr

/-- Membership of a type code in the set
`set(int(x) for x in (device.get("daliTypes") or []) if isinstance(x, int))`. -/
def hasCode (device : Device) (n : Int) : Bool :=
  ((device.daliTypes.getD []).filterMap
    (fun e => match e with | .dint m => some m | .dother => none)).contains n

/-- The classifier's result as a function of the four type-code membership
bits (8, 6, 4, 7): the kinds list is built by the four independent ifs of
the source, and kind is resolved by the priority scan
`next((k for k in priority if k in kinds), None)` with "unknown" fallback. -/
def classifyBits (b8 b6 b4 b7 : Bool) : Caps :=
  let kinds : List String :=
    (if b8 then ["color"] else []) ++
    (if b6 then ["led"] else []) ++
    (if b4 then ["incandescent"] else []) ++
    (if b7 then ["relay"] else [])
  let kind :=
    ((["color", "led", "incandescent", "relay"].find?
      (fun k => kinds.contains k)).getD "unknown")
  ⟨kind, b7, b8 || b6 || b4, b8⟩

/-- Client.classify_device: infer capabilities from daliTypes.  The four
boolean flags are accumulated independently by the four type tests; kind is
the highest-priority matched candidate, else "unknown". -/
def classify_device (device : Device) : Caps :=
  classifyBits (hasCode device 8) (hasCode device 6) (hasCode device 4) (hasCode device 7)

/-! Scene discovery (Client.device_scene_numbers). -/

/-- Lookup of a string key in a scene-entry dict (Python dict keys are
unique; the first binding wins). -/
def plookup : List (String × JPrim) → String → Option JPrim
  | [], _ => none
  | p :: rest, key => if p.1 = key then some p.2 else plookup rest key

/-- The `for key in ("id", "scene", "number")` scan: take the first of the
three keys whose value is an integer. -/
def objSceneNum (kvs : List (String × JPrim)) : Option Int :=
  match plookup kvs "id" with
  | some (.pint n) => some n
  | _ =>
    match plookup kvs "scene" with
    | some (.pint n) => some n
    | _ =>
      match plookup kvs "number" with
      | some (.pint n) => some n
      | _ => none

/-- Per-entry normalization of one raw scene entry: an int is used
directly, a dict goes through the three-key scan, anything else is
discarded. -/
def sceneEntryNum : SceneEntry → Option Int
  | .sint n => some n
  | .sobj kvs => objSceneNum kvs
  | .sother => none

/-- Insert an integer into a strictly-ascending list, keeping it
strictly ascending (models accumulating into a Python set and sorting). -/
def insSorted (n : Int) : List Int → List Int
  | [] => [n]
  | m :: rest =>
      if n < m then n :: m :: rest
      else if n = m then m :: rest
      else m :: insSorted n rest

/-- sorted(set(l)) for a list of integers. -/
def sortedDedup (l : List Int) : List Int :=
  l.foldr insSorted []

/-- Client.device_scene_numbers: collect the normalized scene numbers of a
device's scenes list into a set and return them sorted ascending. -/
def device_scene_numbers (d : Device) : List Int :=
  sortedDedup (d.scenes.filterMap sceneEntryNum)

/-! Control payload builder (cli.py closures). -/

/-- The JSON feature payload posted to a control endpoint: each field is
one optional key of the payload object. -/
structure Payload where
  switchable : Option Bool
  dimmable : Option Int
  dimmableWithFade : Option (Int × Rat)
  scene : Option Int
  sceneWithFade : Option (Int × Rat)
  deriving DecidableEq, Repr

/-- The empty payload object. -/
def emptyPayload : Payload :=
  ⟨none, none, none, none, none⟩

/-- Models the Python truthiness test `args.fade and args.fade > 0`. -/
def fadeRequested (fade : Rat) : Bool :=
  decide (fade ≠ 0 ∧ 0 < fade)

/-- Payload built by _device_on after classifying the device. -/
def devicePayloadOn (cls : Caps) (fade : Rat) : Payload :=
  if cls.kind = "relay" ∧ cls.supports_dim = false then
    { emptyPayload with switchable := some true }
  else if fadeRequested fade then
    { emptyPayload with dimmableWithFade := some (100, fade) }
  else
    { emptyPayload with dimmable := some 100 }

/-- Payload built by _device_off after classifying the device. -/
def devicePayloadOff (cls : Caps) (fade : Rat) : Payload :=
  if cls.kind = "relay" ∧ cls.supports_dim = false then
    { emptyPayload with switchable := some false }
  else if fadeRequested fade then
    { emptyPayload with dimmableWithFade := some (0, fade) }
  else
    { emptyPayload with dimmable := some 0 }

/-- Payload built by _zone_recall; it never consults any capability. -/
def zoneRecallPayload (sceneNum : Int) (fade : Rat) : Payload :=
  if fadeRequested fade then
    { emptyPayload with sceneWithFade := some (sceneNum, fade) }
  else
    { emptyPayload with scene := some sceneNum }

/-- The single combined payload built by _all_off and _zone_off: a switch
component and a dim component in one object. -/
def combinedOffPayload (fade : Rat) : Payload :=
  if fadeRequested fade then
    { emptyPayload with switchable := some false, dimmableWithFade := some (0, fade) }
  else
    { emptyPayload with switchable := some false, dimmable := some 0 }

/-- The single combined payload built by _zone_on. -/
def combinedOnPayload (fade : Rat) : Payload :=
  if fadeRequested fade then
    { emptyPayload with switchable := some true, dimmableWithFade := some (100, fade) }
  else
    { emptyPayload with switchable := some true, dimmable := some 100 }

/-- One HTTP control invocation issued by a CLI command. -/
inductive ControlCall where
  | device (id : Int) (p : Payload)
  | zone (id : Int) (p : Payload)
  | broadcast (p : Payload) (line : Option Int)
  deriving DecidableEq, Repr

/-- True for a per-device control invocation. -/
def isDeviceCall : ControlCall → Bool
  | .device _ _ => true
  | _ => false

/-- The complete list of control calls issued by _all_off: one broadcast
call carrying the combined payload. -/
def all_off_calls (fade : Rat) (line : Option Int) : List ControlCall :=
  [ControlCall.broadcast (combinedOffPayload fade) line]

/-- The complete list of control calls issued by _zone_off: one zone call
carrying the combined payload. -/
def zone_off_calls (zoneId : Int) (fade : Rat) : List ControlCall :=
  [ControlCall.zone zoneId (combinedOffPayload fade)]

/-! Membership and scene resolution (Client.zone_scene_numbers and
Client.zone_members). -/

/-- The minimal fallback record `{"id": did}` used by zone_scene_numbers
when an explicit device id is neither fetchable nor in the directory. -/
def stubDev (did : Int) : Device :=
  ⟨some did, none, none, [], [], none⟩

/-- The devices_index dict of zone_scene_numbers: keyed by integer id,
iterating the directory in order so a later duplicate id overwrites in
place. -/
def buildIndex (acc : List (Int × Device)) : List Device → List (Int × Device)
  | [] => acc
  | d :: rest =>
      match d.id with
      | some did => buildIndex (idxInsert did d acc) rest
      | none => buildIndex acc rest

/-- The directory index a resolver works with: empty when the directory
fetch raises (the except branch passes). -/
def directoryIndex (tr : Transport) : List (Int × Device) :=
  match tr.devicesResp with
  | none => []
  | some devs => buildIndex [] devs

/-- A detail-fetch attempt: the fetched record on success, the given
fallback on a RequestException. -/
def fetchOr (tr : Transport) (did : Int) (fallback : Device) : Device :=
  match tr.deviceResp did with
  | some d => d
  | none => fallback

/-- The explicit-id loop of zone_scene_numbers: for each explicit device id
attempt one detail fetch (recorded in the returned trace), falling back to
the directory record or the bare stub, and store the result under that id. -/
def explicitLoop (tr : Transport) (index : List (Int × Device)) :
    List Int → List (Int × Device) → List (Int × Device) × List Int
  | [], td => (td, [])
  | did :: rest, td =>
      ((explicitLoop tr index rest
          (idxInsert did (fetchOr tr did ((lookupIdx index did).getD (stubDev did))) td)).1,
        did :: (explicitLoop tr index rest
          (idxInsert did (fetchOr tr did ((lookupIdx index did).getD (stubDev did))) td)).2)

/-- The eligibility test of the group-membership loop: the
`is_broadcast or any(int(g) in group_ids for g in groups)` condition, with
a groups conversion error counting as ineligible because the surrounding
try/except skips the device. -/
def groupEligible (groupIds : List Int) (isB : Bool) (d : Device) : Bool :=
  if isB then true
  else
    match scanGroups groupIds d.groups with
    | .member => true
    | _ => false

/-- The group-membership loop of zone_scene_numbers: for each directory
entry that is broadcast-eligible or whose groups scan finds a targeted
group id, and that is not already resolved, attempt one detail fetch
(recorded in the trace) and store the fetched record, keeping the directory
record on failure.  A groups conversion error skips the device. -/
def groupLoop (tr : Transport) (groupIds : List Int) (isB : Bool) :
    List (Int × Device) → List (Int × Device) → List (Int × Device) × List Int
  | [], td => (td, [])
  | (did, d) :: rest, td =>
      if groupEligible groupIds isB d && !(hasKey td did) then
        ((groupLoop tr groupIds isB rest (idxInsert did (fetchOr tr did d) td)).1,
          did :: (groupLoop tr groupIds isB rest (idxInsert did (fetchOr tr did d) td)).2)
      else
        groupLoop tr groupIds isB rest td

/-- The target_devs resolution stage of zone_scene_numbers, returning the
resolved id-to-record dict together with the trace of per-device detail
fetch attempts in issue order. -/
def resolveTargetDevs (tr : Transport) (zone : Zone) :
    List (Int × Device) × List Int :=
  if (zoneBuckets zone).2.1 ≠ [] ∨ (zoneBuckets zone).2.2 = true then
    ((groupLoop tr (zoneBuckets zone).2.1 (zoneBuckets zone).2.2 (directoryIndex tr)
        (explicitLoop tr (directoryIndex tr) (zoneBuckets zone).1 []).1).1,
      (explicitLoop tr (directoryIndex tr) (zoneBuckets zone).1 []).2 ++
        (groupLoop tr (zoneBuckets zone).2.1 (zoneBuckets zone).2.2 (directoryIndex tr)
          (explicitLoop tr (directoryIndex tr) (zoneBuckets zone).1 []).1).2)
  else
    explicitLoop tr (directoryIndex tr) (zoneBuckets zone).1 []

/-- Client.zone_scene_numbers: the sorted set of normalized scene numbers
over all resolved target devices. -/
def zone_scene_numbers (tr : Transport) (zone : Zone) : List Int :=
  sortedDedup
    (((resolveTargetDevs tr zone).1.map (fun p => device_scene_numbers p.2)).foldr
      (fun l acc => l ++ acc) [])

/-- The members dict loop of zone_members: iterate the directory once,
keeping a device when its id is an explicit target, otherwise (when group
ids exist or broadcast is set) when broadcast is set or its groups scan
finds a targeted group id; a groups conversion error skips the device.  No
detail fetch is ever attempted. -/
def membersLoop (explicitIds groupIds : List Int) (isB : Bool) :
    List Device → List (Int × Device) → List (Int × Device)
  | [], acc => acc
  | d :: rest, acc =>
      match d.id with
      | none => membersLoop explicitIds groupIds isB rest acc
      | some did =>
          if did ∈ explicitIds then
            membersLoop explicitIds groupIds isB rest (idxInsert did d acc)
          else if groupIds ≠ [] ∨ isB = true then
            if isB then
              membersLoop explicitIds groupIds isB rest (idxInsert did d acc)
            else
              match scanGroups groupIds d.groups with
              | .member => membersLoop explicitIds groupIds isB rest (idxInsert did d acc)
              | _ => membersLoop explicitIds groupIds isB rest acc
          else
            membersLoop explicitIds groupIds isB rest acc

/-- The `(x.get("line", 0), x.get("address", 0), x.get("id", 0))` sort key. -/
def memberKey (d : Device) : Int × Int × Int :=
  (d.line.getD 0, d.address.getD 0, d.id.getD 0)

/-- Strict lexicographic comparison of member sort keys, as Python tuple
comparison orders them; inserting before the first strictly-greater key
reproduces Python's stable ascending sort. -/
def keyLTb (d e : Device) : Bool :=
  decide ((memberKey d).1 < (memberKey e).1
    ∨ ((memberKey d).1 = (memberKey e).1
      ∧ ((memberKey d).2.1 < (memberKey e).2.1
        ∨ ((memberKey d).2.1 = (memberKey e).2.1
          ∧ (memberKey d).2.2 < (memberKey e).2.2))))

/-- The members dict computed by zone_members: empty when the directory
fetch raises. -/
def zoneMembersDict (tr : Transport) (zone : Zone) : List (Int × Device) :=
  match tr.devicesResp with
  | none => []
  | some devs =>
      membersLoop (zoneBuckets zone).1 (zoneBuckets zone).2.1 (zoneBuckets zone).2.2 devs []

/-- Client.zone_members: resolve the member devices of a zone from the
directory listing alone and return them sorted by (line, address, id).  A
directory-fetch failure yields the empty list. -/
def zone_members (tr : Transport) (zone : Zone) : List Device :=
  List.insertionSort (fun d e => keyLTb d e = true)
    ((zoneMembersDict tr zone).map Prod.snd)

/-- Modelled from the amended failure/fetch semantics for comparison with
the resolver: the directory keys that the group loop of zone_scene_numbers
will fetch, namely the eligible directory entries whose id is not an
explicit target, in directory-index order (empty when neither group ids nor
the broadcast flag are present). -/
def groupFetchIds (tr : Transport) (zone : Zone) : List Int :=
  if (zoneBuckets zone).2.1 ≠ [] ∨ (zoneBuckets zone).2.2 = true then
    ((directoryIndex tr).filter
      (fun q =>
        groupEligible (zoneBuckets zone).2.1 (zoneBuckets zone).2.2 q.2 &&
          !(decide (q.1 ∈ (zoneBuckets zone).1)))).map Prod.fst
  else []

/-! Concrete fixtures used by witnesses and counterexamples. -/

/-- A directory device in DALI group 1, with scene 2 in its listing record. -/
def fixGroupDev : Device :=
  ⟨some 5, none, none, [.gint 1], [.sint 2], none⟩

/-- The detail record of the same device, with scene 7. -/
def fixGroupDevDetail : Device :=
  ⟨some 5, none, none, [.gint 1], [.sint 7], none⟩

/-- A transport whose directory lists fixGroupDev and whose detail endpoint
answers for id 5 with the detail record. -/
def fixGroupTransport : Transport :=
  ⟨some [fixGroupDev], fun i => if i = 5 then some fixGroupDevDetail else none⟩

/-- A zone whose only target is DALI group 1. -/
def fixGroupZone : Zone :=
  ⟨some "z", [.tdict (some "group") (some 1)]⟩

/-- A transport whose directory fetch fails but whose detail endpoint still
answers for device 1 with a record carrying scene 3. -/
def fixDirFailTransport : Transport :=
  ⟨none, fun i => if i = 1 then some ⟨some 1, none, none, [], [.sint 3], none⟩ else none⟩

/-- A zone whose only target is explicit device 1. -/
def fixDirFailZone : Zone :=
  ⟨some "z", [.tdict (some "device") (some 1)]⟩

/-- Directory device 1, member of group 2, listing record without scenes. -/
def fixDupDev1 : Device :=
  ⟨some 1, some 0, some 4, [.gint 2], [], none⟩

/-- The detail record for device 1, distinguishable from the listing. -/
def fixDupDev1Detail : Device :=
  ⟨some 1, some 0, some 4, [.gint 2], [.sint 11], none⟩

/-- Directory device 2, also a member of group 2. -/
def fixDupDev2 : Device :=
  ⟨some 2, some 0, some 3, [.gint 2], [.sint 12], none⟩

/-- A transport listing both group-2 devices, with detail answers for both. -/
def fixDupTransport : Transport :=
  ⟨some [fixDupDev1, fixDupDev2],
    fun i =>
      if i = 1 then some fixDupDev1Detail
      else if i = 2 then some fixDupDev2 else none⟩

/-- A zone reaching device 1 both explicitly and through group 2. -/
def fixDupZone : Zone :=
  ⟨some "mixed", [.tdict (some "device") (some 1), .tdict (some "group") (some 2)]⟩

/-- A broadcast-named zone (odd case and padding) that also names explicit
device 2 in its targets. -/
def fixBroadcastZone : Zone :=
  ⟨some " Broadcast ", [.tdict (some "device") (some 2)]⟩

/-- Two plain directory devices for the broadcast fixtures. -/
def fixDevA : Device :=
  ⟨some 1, some 0, some 2, [.gint 1], [.sint 4], none⟩

/-- Second plain directory device. -/
def fixDevB : Device :=
  ⟨some 2, some 0, some 1, [], [.sint 5], none⟩

/-- A transport listing the two broadcast-fixture devices; the detail
endpoint only knows device 1. -/
def fixTransportAB : Transport :=
  ⟨some [fixDevA, fixDevB], fun i => if i = 1 then some fixDevA else none⟩

/-- The same directory served by a transport whose detail endpoint always
fails, for showing zone_members never consults it. -/
def fixTransportABNoDetail : Transport :=
  ⟨some [fixDevA, fixDevB], fun _ => none⟩

/-- A transport on which every request fails. -/
def fixAllFailTransport : Transport :=
  ⟨none, fun _ => none⟩

/-! Helper lemmas about the sorted-set accumulator. -/

theorem mem_insSorted (x n : Int) (l : List Int) :
    x ∈ insSorted n l ↔ x = n ∨ x ∈ l := by
  induction l with
  | nil => simp [insSorted]
  | cons m rest ih =>
      rw [insSorted]
      by_cases h1 : n < m
      · rw [if_pos h1]
        simp only [List.mem_cons]
      · rw [if_neg h1]
        by_cases h2 : n = m
        · rw [if_pos h2]
          subst h2
          simp only [List.mem_cons]
          tauto
        · rw [if_neg h2]
          simp only [List.mem_cons, ih]
          tauto

theorem sorted_insSorted (n : Int) (l : List Int)
    (hl : List.Sorted (· < ·) l) : List.Sorted (· < ·) (insSorted n l) := by
  induction l with
  | nil => simp [insSorted]
  | cons m rest ih =>
      rw [List.sorted_cons] at hl
      rw [insSorted]
      by_cases h1 : n < m
      · rw [if_pos h1, List.sorted_cons]
        refine ⟨?_, ?_⟩
        · intro b hb
          rcases List.mem_cons.mp hb with hb | hb
          · exact hb ▸ h1
          · exact lt_trans h1 (hl.1 b hb)
        · rw [List.sorted_cons]
          exact hl
      · rw [if_neg h1]
        by_cases h2 : n = m
        · rw [if_pos h2, List.sorted_cons]
          exact hl
        · rw [if_neg h2, List.sorted_cons]
          refine ⟨?_, ih hl.2⟩
          intro b hb
          rcases (mem_insSorted b n rest).mp hb with hb | hb
          · subst hb
            omega
          · exact hl.1 b hb

theorem sorted_sortedDedup (l : List Int) :
    List.Sorted (· < ·) (sortedDedup l) := by
  induction l with
  | nil => simp [sortedDedup]
  | cons n rest ih => exact sorted_insSorted n _ ih

theorem mem_sortedDedup (x : Int) (l : List Int) :
    x ∈ sortedDedup l ↔ x ∈ l := by
  induction l with
  | nil => simp [sortedDedup]
  | cons n rest ih =>
      show x ∈ insSorted n (sortedDedup rest) ↔ _
      rw [mem_insSorted]
      simp [ih]

/-! Helper lemmas about the insertion-ordered dict. -/

theorem lookupIdx_idxInsert (k k' : Int) (v : Device) (td : List (Int × Device)) :
    lookupIdx (idxInsert k v td) k' = if k = k' then some v else lookupIdx td k' := by
  induction td with
  | nil =>
      by_cases h : k = k' <;> simp [idxInsert, lookupIdx, h]
  | cons p rest ih =>
      obtain ⟨a, b⟩ := p
      rw [idxInsert]
      by_cases h1 : a = k
      · subst h1
        rw [if_pos rfl]
        by_cases h2 : a = k'
        · subst h2
          simp [lookupIdx]
        · simp [lookupIdx, h2]
      · rw [if_neg h1]
        by_cases h2 : a = k'
        · subst h2
          have hk : ¬ k = a := fun h => h1 h.symm
          simp [lookupIdx, hk]
        · simp [lookupIdx, h2, ih]

theorem mem_keysOf_idxInsert (k k' : Int) (v : Device) (td : List (Int × Device)) :
    k' ∈ keysOf (idxInsert k v td) ↔ k' = k ∨ k' ∈ keysOf td := by
  induction td with
  | nil => simp [idxInsert, keysOf]
  | cons p rest ih =>
      obtain ⟨a, b⟩ := p
      rw [idxInsert]
      by_cases h1 : a = k
      · subst h1
        rw [if_pos rfl]
        simp only [keysOf, List.map_cons, List.mem_cons]
        tauto
      · rw [if_neg h1]
        simp only [keysOf, List.map_cons, List.mem_cons] at ih ⊢
        rw [ih]
        tauto

theorem nodupKeys_idxInsert (k : Int) (v : Device) (td : List (Int × Device))
    (h : (keysOf td).Nodup) : (keysOf (idxInsert k v td)).Nodup := by
  induction td with
  | nil => simp [idxInsert, keysOf]
  | cons p rest ih =>
      obtain ⟨a, b⟩ := p
      simp only [keysOf, List.map_cons, List.nodup_cons] at h
      rw [idxInsert]
      by_cases h1 : a = k
      · subst h1
        rw [if_pos rfl]
        simp only [keysOf, List.map_cons, List.nodup_cons]
        exact h
      · rw [if_neg h1]
        simp only [keysOf, List.map_cons, List.nodup_cons]
        refine ⟨?_, ih h.2⟩
        intro hmem
        rcases (mem_keysOf_idxInsert k a v rest).mp hmem with h2 | h2
        · exact h1 h2
        · exact h.1 h2

theorem mem_idxInsert (k : Int) (v : Device) (td : List (Int × Device)) (p : Int × Device)
    (hp : p ∈ idxInsert k v td) : p = (k, v) ∨ p ∈ td := by
  induction td with
  | nil => simpa [idxInsert] using hp
  | cons q rest ih =>
      obtain ⟨a, b⟩ := q
      rw [idxInsert] at hp
      by_cases h1 : a = k
      · rw [if_pos h1] at hp
        rcases List.mem_cons.mp hp with h | h
        · exact Or.inl h
        · exact Or.inr (List.mem_cons.mpr (Or.inr h))
      · rw [if_neg h1] at hp
        rcases List.mem_cons.mp hp with h | h
        · exact Or.inr (List.mem_cons.mpr (Or.inl h))
        · rcases ih h with h' | h'
          · exact Or.inl h'
          · exact Or.inr (List.mem_cons.mpr (Or.inr h'))

theorem hasKey_idxInsert (k k' : Int) (v : Device) (td : List (Int × Device)) :
    hasKey (idxInsert k v td) k' = (decide (k = k') || hasKey td k') := by
  show (lookupIdx (idxInsert k v td) k').isSome = _
  rw [lookupIdx_idxInsert]
  by_cases h : k = k' <;> simp [h, hasKey]

/-! Helper lemmas about the directory index and the resolution loops. -/

theorem nodupKeys_buildIndex (devs : List Device) (acc : List (Int × Device))
    (h : (keysOf acc).Nodup) : (keysOf (buildIndex acc devs)).Nodup := by
  induction devs generalizing acc with
  | nil => exact h
  | cons d rest ih =>
      rw [buildIndex]
      cases d.id with
      | none => exact ih acc h
      | some did => exact ih _ (nodupKeys_idxInsert did d acc h)

theorem nodupKeys_directoryIndex (tr : Transport) :
    (keysOf (directoryIndex tr)).Nodup := by
  rw [directoryIndex]
  cases tr.devicesResp with
  | none => simp [keysOf]
  | some devs => exact nodupKeys_buildIndex devs [] (by simp [keysOf])

theorem explicitLoop_trace (tr : Transport) (index : List (Int × Device))
    (ids : List Int) (td : List (Int × Device)) :
    (explicitLoop tr index ids td).2 = ids := by
  induction ids generalizing td with
  | nil => rfl
  | cons did rest ih =>
      rw [explicitLoop]
      rw [ih]

theorem explicitLoop_lookup (tr : Transport) (index : List (Int × Device))
    (ids : List Int) (td : List (Int × Device)) (k : Int) :
    lookupIdx (explicitLoop tr index ids td).1 k =
      if k ∈ ids then some (fetchOr tr k ((lookupIdx index k).getD (stubDev k)))
      else lookupIdx td k := by
  induction ids generalizing td with
  | nil => simp [explicitLoop]
  | cons did rest ih =>
      rw [explicitLoop]
      by_cases hk : k ∈ rest
      · rw [ih, if_pos hk, if_pos (List.mem_cons.mpr (Or.inr hk))]
      · rw [ih, if_neg hk, lookupIdx_idxInsert]
        by_cases hd : did = k
        · subst hd
          rw [if_pos rfl, if_pos (List.mem_cons.mpr (Or.inl rfl))]
        · have hnc : ¬ k ∈ did :: rest := by
            intro hmem
            rcases List.mem_cons.mp hmem with h | h
            · exact hd h.symm
            · exact hk h
          rw [if_neg hd, if_neg hnc]

theorem nodupKeys_explicitLoop (tr : Transport) (index : List (Int × Device))
    (ids : List Int) (td : List (Int × Device))
    (h : (keysOf td).Nodup) : (keysOf (explicitLoop tr index ids td).1).Nodup := by
  induction ids generalizing td with
  | nil => exact h
  | cons did rest ih =>
      rw [explicitLoop]
      exact ih _ (nodupKeys_idxInsert _ _ _ h)

theorem explicitLoop_key_mem (tr : Transport) (index : List (Int × Device))
    (ids : List Int) (td : List (Int × Device)) :
    ∀ p ∈ (explicitLoop tr index ids td).1, p.1 ∈ ids ∨ p ∈ td := by
  induction ids generalizing td with
  | nil =>
      intro p hp
      exact Or.inr hp
  | cons did rest ih =>
      intro p hp
      rw [explicitLoop] at hp
      rcases ih _ p hp with h | h
      · exact Or.inl (List.mem_cons.mpr (Or.inr h))
      · rcases mem_idxInsert _ _ _ _ h with h' | h'
        · rw [h']
          exact Or.inl (List.mem_cons.mpr (Or.inl rfl))
        · exact Or.inr h'

theorem hasKey_explicitLoop_nil_base (tr : Transport) (index : List (Int × Device))
    (ids : List Int) (k : Int) :
    hasKey (explicitLoop tr index ids []).1 k = decide (k ∈ ids) := by
  show (lookupIdx (explicitLoop tr index ids []).1 k).isSome = _
  rw [explicitLoop_lookup]
  by_cases h : k ∈ ids <;> simp [h, lookupIdx]

theorem groupLoop_lookup_preserve (tr : Transport) (gids : List Int) (isB : Bool)
    (pairs : List (Int × Device)) (td : List (Int × Device)) (k : Int) (v : Device)
    (h : lookupIdx td k = some v) :
    lookupIdx (groupLoop tr gids isB pairs td).1 k = some v := by
  induction pairs generalizing td with
  | nil => exact h
  | cons q rest ih =>
      obtain ⟨did, d⟩ := q
      rw [groupLoop]
      by_cases hc : (groupEligible gids isB d && !(hasKey td did)) = true
      · rw [if_pos hc]
        apply ih
        have hdk : ¬ did = k := by
          intro he
          subst he
          have hs : hasKey td did = true := by
            show (lookupIdx td did).isSome = true
            rw [h]
            rfl
          rw [hs] at hc
          simp at hc
        rw [lookupIdx_idxInsert, if_neg hdk]
        exact h
      · rw [if_neg hc]
        exact ih td h

theorem nodupKeys_groupLoop (tr : Transport) (gids : List Int) (isB : Bool)
    (pairs : List (Int × Device)) (td : List (Int × Device))
    (h : (keysOf td).Nodup) : (keysOf (groupLoop tr gids isB pairs td).1).Nodup := by
  induction pairs generalizing td with
  | nil => exact h
  | cons q rest ih =>
      obtain ⟨did, d⟩ := q
      rw [groupLoop]
      by_cases hc : (groupEligible gids isB d && !(hasKey td did)) = true
      · rw [if_pos hc]
        exact ih _ (nodupKeys_idxInsert _ _ _ h)
      · rw [if_neg hc]
        exact ih td h

theorem groupLoop_key_mem (tr : Transport) (gids : List Int) (isB : Bool)
    (pairs : List (Int × Device)) (td : List (Int × Device)) :
    ∀ p ∈ (groupLoop tr gids isB pairs td).1, p ∈ td ∨ p.1 ∈ pairs.map Prod.fst := by
  induction pairs generalizing td with
  | nil =>
      intro p hp
      exact Or.inl hp
  | cons q rest ih =>
      obtain ⟨did, d⟩ := q
      intro p hp
      rw [groupLoop] at hp
      by_cases hc : (groupEligible gids isB d && !(hasKey td did)) = true
      · rw [if_pos hc] at hp
        rcases ih _ p hp with h | h
        · rcases mem_idxInsert _ _ _ _ h with h' | h'
          · rw [h']
            exact Or.inr (List.mem_cons.mpr (Or.inl rfl))
          · exact Or.inl h'
        · exact Or.inr (List.mem_cons.mpr (Or.inr h))
      · rw [if_neg hc] at hp
        rcases ih td p hp with h | h
        · exact Or.inl h
        · exact Or.inr (List.mem_cons.mpr (Or.inr h))

theorem groupLoop_trace (tr : Transport) (gids : List Int) (isB : Bool)
    (pairs : List (Int × Device)) (td : List (Int × Device))
    (hnd : (pairs.map Prod.fst).Nodup) :
    (groupLoop tr gids isB pairs td).2 =
      (pairs.filter (fun q => groupEligible gids isB q.2 && !(hasKey td q.1))).map
        Prod.fst := by
  induction pairs generalizing td with
  | nil => rfl
  | cons q rest ih =>
      obtain ⟨did, d⟩ := q
      simp only [List.map_cons, List.nodup_cons] at hnd
      rw [groupLoop, List.filter_cons]
      by_cases hc : (groupEligible gids isB d && !(hasKey td did)) = true
      · rw [if_pos hc, if_pos hc]
        rw [List.map_cons]
        rw [ih _ hnd.2]
        have hfc : rest.filter
              (fun q => groupEligible gids isB q.2 &&
                !(hasKey (idxInsert did (fetchOr tr did d) td) q.1)) =
            rest.filter (fun q => groupEligible gids isB q.2 && !(hasKey td q.1)) := by
          apply List.filter_congr
          intro a ha
          have hne : ¬ did = a.1 := by
            intro he
            apply hnd.1
            rw [he]
            exact List.mem_map.mpr ⟨a, ha, rfl⟩
          rw [hasKey_idxInsert]
          simp [hne]
        rw [hfc]
      · rw [if_neg hc, if_neg hc]
        exact ih td hnd.2

/-! Helper lemmas about the members loop of zone_members. -/

theorem membersLoop_broadcast_cons (eids gids : List Int) (oid : Option Int)
    (ol oa : Option Int) (og : List GEntry) (os : List SceneEntry)
    (odt : Option (List DEntry)) (devs : List Device) (acc : List (Int × Device)) :
    membersLoop eids gids true (⟨oid, ol, oa, og, os, odt⟩ :: devs) acc =
      (match oid with
        | none => membersLoop eids gids true devs acc
        | some did =>
            membersLoop eids gids true devs
              (idxInsert did ⟨oid, ol, oa, og, os, odt⟩ acc)) := by
  cases oid with
  | none => rfl
  | some did =>
      rw [membersLoop]
      dsimp only
      by_cases h : did ∈ eids
      · rw [if_pos h]
      · rw [if_neg h, if_pos (Or.inr rfl), if_pos rfl]

theorem membersLoop_id_inv (eids gids : List Int) (isB : Bool) (devs : List Device)
    (acc : List (Int × Device)) (hacc : ∀ p ∈ acc, p.2.id = some p.1) :
    ∀ p ∈ membersLoop eids gids isB devs acc, p.2.id = some p.1 := by
  induction devs generalizing acc with
  | nil => exact hacc
  | cons d rest ih =>
      obtain ⟨oid, ol, oa, og, os, odt⟩ := d
      rw [membersLoop]
      cases oid with
      | none => exact ih acc hacc
      | some did =>
          dsimp only
          have hins : ∀ p ∈ idxInsert did ⟨some did, ol, oa, og, os, odt⟩ acc,
              p.2.id = some p.1 := by
            intro p hp
            rcases mem_idxInsert _ _ _ _ hp with h | h
            · rw [h]
            · exact hacc p h
          by_cases h1 : did ∈ eids
          · rw [if_pos h1]
            exact ih _ hins
          · rw [if_neg h1]
            by_cases h2 : (gids ≠ [] ∨ isB = true)
            · rw [if_pos h2]
              cases isB with
              | true =>
                  rw [if_pos rfl]
                  exact ih _ hins
              | false =>
                  rw [if_neg (by simp)]
                  cases scanGroups gids og with
                  | member => exact ih _ hins
                  | nonMember => exact ih acc hacc
                  | err => exact ih acc hacc
            · rw [if_neg h2]
              exact ih acc hacc

theorem membersLoop_nodup_keys (eids gids : List Int) (isB : Bool) (devs : List Device)
    (acc : List (Int × Device)) (hacc : (keysOf acc).Nodup) :
    (keysOf (membersLoop eids gids isB devs acc)).Nodup := by
  induction devs generalizing acc with
  | nil => exact hacc
  | cons d rest ih =>
      obtain ⟨oid, ol, oa, og, os, odt⟩ := d
      rw [membersLoop]
      cases oid with
      | none => exact ih acc hacc
      | some did =>
          dsimp only
          have hins : (keysOf (idxInsert did ⟨some did, ol, oa, og, os, odt⟩ acc)).Nodup :=
            nodupKeys_idxInsert _ _ _ hacc
          by_cases h1 : did ∈ eids
          · rw [if_pos h1]
            exact ih _ hins
          · rw [if_neg h1]
            by_cases h2 : (gids ≠ [] ∨ isB = true)
            · rw [if_pos h2]
              cases isB with
              | true =>
                  rw [if_pos rfl]
                  exact ih _ hins
              | false =>
                  rw [if_neg (by simp)]
                  cases scanGroups gids og with
                  | member => exact ih _ hins
                  | nonMember => exact ih acc hacc
                  | err => exact ih acc hacc
            · rw [if_neg h2]
              exact ih acc hacc

theorem membersLoop_val_mem (eids gids : List Int) (isB : Bool) (devs : List Device)
    (acc : List (Int × Device)) :
    ∀ p ∈ membersLoop eids gids isB devs acc, p ∈ acc ∨ p.2 ∈ devs := by
  induction devs generalizing acc with
  | nil =>
      intro p hp
      exact Or.inl hp
  | cons d rest ih =>
      obtain ⟨oid, ol, oa, og, os, odt⟩ := d
      intro p hp
      rw [membersLoop] at hp
      have hpush : ∀ acc' : List (Int × Device),
          (∀ q ∈ acc', q ∈ acc ∨ q.2 ∈ (⟨oid, ol, oa, og, os, odt⟩ : Device) :: rest) →
          p ∈ membersLoop eids gids isB rest acc' →
          p ∈ acc ∨ p.2 ∈ (⟨oid, ol, oa, og, os, odt⟩ : Device) :: rest := by
        intro acc' hacc' hp'
        rcases ih acc' p hp' with h | h
        · exact hacc' p h
        · exact Or.inr (List.mem_cons.mpr (Or.inr h))
      cases oid with
      | none => exact hpush acc (fun q hq => Or.inl hq) hp
      | some did =>
          dsimp only at hp
          have hstep' : ∀ q ∈ idxInsert did ⟨some did, ol, oa, og, os, odt⟩ acc,
              q ∈ acc ∨ q.2 ∈ (⟨some did, ol, oa, og, os, odt⟩ : Device) :: rest := by
            intro q hq
            rcases mem_idxInsert _ _ _ _ hq with h | h
            · rw [h]
              exact Or.inr (List.mem_cons.mpr (Or.inl rfl))
            · exact Or.inl h
          by_cases h1 : did ∈ eids
          · rw [if_pos h1] at hp
            exact hpush _ hstep' hp
          · rw [if_neg h1] at hp
            by_cases h2 : (gids ≠ [] ∨ isB = true)
            · rw [if_pos h2] at hp
              cases isB with
              | true =>
                  rw [if_pos rfl] at hp
                  exact hpush _ hstep' hp
              | false =>
                  rw [if_neg (by simp)] at hp
                  cases hscan : scanGroups gids og with
                  | member =>
                      rw [hscan] at hp
                      exact hpush _ hstep' hp
                  | nonMember =>
                      rw [hscan] at hp
                      exact hpush acc (fun q hq => Or.inl hq) hp
                  | err =>
                      rw [hscan] at hp
                      exact hpush acc (fun q hq => Or.inl hq) hp
            · rw [if_neg h2] at hp
              exact hpush acc (fun q hq => Or.inl hq) hp

theorem membersLoop_broadcast_keys (eids gids : List Int) (devs : List Device)
    (acc : List (Int × Device)) (did : Int) :
    did ∈ keysOf (membersLoop eids gids true devs acc) ↔
      did ∈ keysOf acc ∨ ∃ d ∈ devs, d.id = some did := by
  induction devs generalizing acc with
  | nil =>
      show did ∈ keysOf acc ↔ did ∈ keysOf acc ∨ ∃ d ∈ ([] : List Device), d.id = some did
      simp
  | cons d rest ih =>
      obtain ⟨oid, ol, oa, og, os, odt⟩ := d
      rw [membersLoop_broadcast_cons]
      cases oid with
      | none =>
          rw [ih]
          rw [List.exists_mem_cons_iff]
          constructor
          · rintro (h | h)
            · exact Or.inl h
            · exact Or.inr (Or.inr h)
          · rintro (h | h | h)
            · exact Or.inl h
            · exact absurd h (by simp)
            · exact Or.inr h
      | some k =>
          rw [ih, mem_keysOf_idxInsert]
          rw [List.exists_mem_cons_iff]
          constructor
          · rintro ((h | h) | h)
            · exact Or.inr (Or.inl (by rw [h]))
            · exact Or.inl h
            · exact Or.inr (Or.inr h)
          · rintro (h | h | h)
            · exact Or.inl (Or.inr h)
            · refine Or.inl (Or.inl ?_)
              have : some k = some did := h
              exact (Option.some_inj.mp this).symm
            · exact Or.inr h

/-! Helper lemmas about the target partition. -/

theorem partitionIdStep_flag (acc : List Int × List Int × Bool) (ttype : Option String)
    (tid : Option Int) : (partitionIdStep acc ttype tid).2.2 = acc.2.2 := by
  rw [partitionIdStep.eq_def]
  cases tid with
  | none => rfl
  | some i =>
      dsimp only
      split
      · rfl
      · split
        · rfl
        · rfl

theorem partitionBroadcastStep_flag (acc : List Int × List Int × Bool)
    (ttype : Option String) (tid : Option Int) :
    (partitionBroadcastStep acc ttype).2.2 =
      (acc.2.2 || isBroadcastTarget (.tdict ttype tid)) := by
  rw [partitionBroadcastStep, isBroadcastTarget]
  by_cases h : (normType ttype = "broadcast" ∨ normType ttype = "all")
  · rw [if_pos h]
    rcases h with h | h
    · rw [beq_iff_eq.mpr h]
      simp
    · rw [beq_iff_eq.mpr h]
      simp
  · rw [if_neg h]
    push_neg at h
    rw [beq_eq_false_iff_ne.mpr h.1, beq_eq_false_iff_ne.mpr h.2]
    simp

theorem partitionTargets_flag (ts : List TargetEntry)
    (acc : List Int × List Int × Bool) :
    (partitionTargets acc ts).2.2 = (acc.2.2 || ts.any isBroadcastTarget) := by
  induction ts generalizing acc with
  | nil => simp [partitionTargets]
  | cons t rest ih =>
      cases t with
      | tother =>
          rw [partitionTargets, ih, List.any_cons]
          simp [isBroadcastTarget]
      | tdict ty tid =>
          rw [partitionTargets, ih, partitionBroadcastStep_flag _ _ tid,
            partitionIdStep_flag, List.any_cons, Bool.or_assoc]

theorem zoneBuckets_flag (zone : Zone) :
    (zoneBuckets zone).2.2 =
      (isBroadcastName zone.name || zone.targets.any isBroadcastTarget) := by
  rw [zoneBuckets, partitionTargets_flag]

theorem mem_keysOf_iff (td : List (Int × Device)) (k : Int) :
    k ∈ keysOf td ↔ ∃ p ∈ td, p.1 = k := by
  rw [keysOf]
  exact List.mem_map

/-! Claim theorems about the capability classifier. -/

/-- C2: the classifier's boolean flags are the union over all matched type
codes (8 sets supports_color and supports_dim; 6 sets supports_dim; 4 sets
supports_dim; 7 sets supports_switch), while kind is the single
highest-priority matched candidate under color > led > incandescent >
relay; in particular daliTypes [8,7] yields kind "color" with
supports_switch true, and [7,6] yields kind "led" with supports_switch,
supports_dim true and supports_color false. -/
theorem classify_flags_union_kind_priority (d : Device) :
    (classify_device d).supports_color = hasCode d 8
    ∧ (classify_device d).supports_dim = (hasCode d 8 || hasCode d 6 || hasCode d 4)
    ∧ (classify_device d).supports_switch = hasCode d 7
    ∧ (classify_device d).kind =
        (if hasCode d 8 then "color"
         else if hasCode d 6 then "led"
         else if hasCode d 4 then "incandescent"
         else if hasCode d 7 then "relay"
         else "unknown")
    ∧ classify_device ⟨none, none, none, [], [], some [.dint 8, .dint 7]⟩ =
        ⟨"color", true, true, true⟩
    ∧ classify_device ⟨none, none, none, [], [], some [.dint 7, .dint 6]⟩ =
        ⟨"led", true, true, false⟩ := by
  have h : ∀ b8 b6 b4 b7 : Bool,
      (classifyBits b8 b6 b4 b7).supports_color = b8
      ∧ (classifyBits b8 b6 b4 b7).supports_dim = (b8 || b6 || b4)
      ∧ (classifyBits b8 b6 b4 b7).supports_switch = b7
      ∧ (classifyBits b8 b6 b4 b7).kind =
          (if b8 then "color"
           else if b6 then "led"
           else if b4 then "incandescent"
           else if b7 then "relay"
           else "unknown") := by decide
  obtain ⟨h1, h2, h3, h4⟩ := h (hasCode d 8) (hasCode d 6) (hasCode d 4) (hasCode d 7)
  exact ⟨h1, h2, h3, h4, by decide, by decide⟩

/-- C7: the classifier is pure, total and deterministic over device
records: its kind is always one of the five summary kinds; when no type
code matches it returns kind "unknown" with all flags false; empty,
missing and all-non-integer daliTypes (non-integer entries being discarded
silently) all yield that fallback. -/
theorem classify_total_unknown_fallback (d : Device)
    (h8 : hasCode d 8 = false) (h6 : hasCode d 6 = false)
    (h4 : hasCode d 4 = false) (h7 : hasCode d 7 = false) :
    ((classify_device d).kind = "color" ∨ (classify_device d).kind = "led"
      ∨ (classify_device d).kind = "incandescent"
      ∨ (classify_device d).kind = "relay"
      ∨ (classify_device d).kind = "unknown")
    ∧ classify_device d = ⟨"unknown", false, false, false⟩
    ∧ classify_device ⟨none, none, none, [], [], none⟩ =
        ⟨"unknown", false, false, false⟩
    ∧ classify_device ⟨none, none, none, [], [], some []⟩ =
        ⟨"unknown", false, false, false⟩ := by
  have hk : ∀ b8 b6 b4 b7 : Bool,
      (classifyBits b8 b6 b4 b7).kind = "color"
      ∨ (classifyBits b8 b6 b4 b7).kind = "led"
      ∨ (classifyBits b8 b6 b4 b7).kind = "incandescent"
      ∨ (classifyBits b8 b6 b4 b7).kind = "relay"
      ∨ (classifyBits b8 b6 b4 b7).kind = "unknown" := by decide
  refine ⟨hk (hasCode d 8) (hasCode d 6) (hasCode d 4) (hasCode d 7), ?_, by decide, by decide⟩
  show classifyBits (hasCode d 8) (hasCode d 6) (hasCode d 4) (hasCode d 7) = _
  rw [h8, h6, h4, h7]
  decide

/-- C7 witness: a device whose daliTypes mixes a non-integer entry with an
unrecognized integer code matches no type test and classifies to the
"unknown" all-false summary. -/
theorem classify_total_unknown_fallback_witness :
    (hasCode ⟨none, none, none, [], [], some [.dother, .dint 3]⟩ 8 = false
      ∧ hasCode ⟨none, none, none, [], [], some [.dother, .dint 3]⟩ 6 = false
      ∧ hasCode ⟨none, none, none, [], [], some [.dother, .dint 3]⟩ 4 = false
      ∧ hasCode ⟨none, none, none, [], [], some [.dother, .dint 3]⟩ 7 = false)
    ∧ classify_device ⟨none, none, none, [], [], some [.dother, .dint 3]⟩ =
        ⟨"unknown", false, false, false⟩ :=
  ⟨⟨by decide, by decide, by decide, by decide⟩,
    (classify_total_unknown_fallback ⟨none, none, none, [], [], some [.dother, .dint 3]⟩
      (by decide) (by decide) (by decide) (by decide)).2.1⟩

/-- C10: for every device record, supports_color holds exactly when kind is
"color", and supports_dim holds exactly when kind is "color", "led" or
"incandescent"; hence a "relay" or "unknown" classification never carries
supports_dim or supports_color. -/
theorem classify_kind_flag_invariant (d : Device) :
    ((classify_device d).supports_color = true ↔ (classify_device d).kind = "color")
    ∧ ((classify_device d).supports_dim = true ↔
        ((classify_device d).kind = "color" ∨ (classify_device d).kind = "led"
          ∨ (classify_device d).kind = "incandescent")) := by
  have h : ∀ b8 b6 b4 b7 : Bool,
      ((classifyBits b8 b6 b4 b7).supports_color = true ↔
        (classifyBits b8 b6 b4 b7).kind = "color")
      ∧ ((classifyBits b8 b6 b4 b7).supports_dim = true ↔
          ((classifyBits b8 b6 b4 b7).kind = "color"
            ∨ (classifyBits b8 b6 b4 b7).kind = "led"
            ∨ (classifyBits b8 b6 b4 b7).kind = "incandescent")) := by decide
  exact h (hasCode d 8) (hasCode d 6) (hasCode d 4) (hasCode d 7)

/-! Claim theorem about scene discovery. -/

/-- C5: scene discovery normalizes an integer entry directly, an object
entry through the first of the keys id, scene, number whose value is an
integer, and discards every other entry without error; the result is a
strictly ascending (hence duplicate-free) list whose members are exactly
the normalized entries, with the object-without-the-three-keys and
number-only shapes evaluated concretely. -/
theorem device_scene_numbers_normalization (d : Device) :
    List.Sorted (· < ·) (device_scene_numbers d)
    ∧ (∀ n : Int, n ∈ device_scene_numbers d ↔
        ∃ s ∈ d.scenes, sceneEntryNum s = some n)
    ∧ device_scene_numbers ⟨none, none, none, [],
        [.sobj [("number", .pint 9)]], none⟩ = [9]
    ∧ device_scene_numbers ⟨none, none, none, [],
        [.sobj [("x", .pint 1)], .sother], none⟩ = []
    ∧ device_scene_numbers ⟨none, none, none, [],
        [.sint 3, .sobj [("id", .pother), ("scene", .pint 5)], .sint 3], none⟩ =
        [3, 5] := by
  refine ⟨sorted_sortedDedup _, ?_, by decide, by decide, by decide⟩
  intro n
  rw [device_scene_numbers, mem_sortedDedup]
  exact List.mem_filterMap

/-! Claim theorems about the control payload builder. -/

/-- C6: a pure relay (kind "relay", supports_dim false) gets a boolean
switch payload on turn-on/turn-off; every other capability gets the
fade-aware dim payload at fade 2 and the plain dim payload without fade
(0 for off, 100 for on); and a scene-5 recall without fade is the plain
scene payload, built without consulting any capability. -/
theorem build_payload_intent_capability (cls cls2 : Caps) (fade : Rat)
    (hrel : cls.kind = "relay") (hnd : cls.supports_dim = false)
    (hother : ¬(cls2.kind = "relay" ∧ cls2.supports_dim = false)) :
    devicePayloadOn cls fade = { emptyPayload with switchable := some true }
    ∧ devicePayloadOff cls fade = { emptyPayload with switchable := some false }
    ∧ devicePayloadOff cls2 2 = { emptyPayload with dimmableWithFade := some (0, 2) }
    ∧ devicePayloadOff cls2 0 = { emptyPayload with dimmable := some 0 }
    ∧ devicePayloadOn cls2 2 = { emptyPayload with dimmableWithFade := some (100, 2) }
    ∧ devicePayloadOn cls2 0 = { emptyPayload with dimmable := some 100 }
    ∧ zoneRecallPayload 5 0 = { emptyPayload with scene := some 5 } := by
  have hf2 : fadeRequested 2 = true := by decide
  have hf0 : fadeRequested 0 = false := by decide
  refine ⟨?_, ?_, ?_, ?_, ?_, ?_, ?_⟩
  · rw [devicePayloadOn, if_pos ⟨hrel, hnd⟩]
  · rw [devicePayloadOff, if_pos ⟨hrel, hnd⟩]
  · rw [devicePayloadOff, if_neg hother, hf2, if_pos rfl]
  · rw [devicePayloadOff, if_neg hother, hf0]
    simp
  · rw [devicePayloadOn, if_neg hother, hf2, if_pos rfl]
  · rw [devicePayloadOn, if_neg hother, hf0]
    simp
  · rw [zoneRecallPayload, hf0]
    simp

/-- C6 witness: the theorem instantiated with the classifier's own output
for a relay-only device and an LED-driver device. -/
theorem build_payload_intent_capability_witness :
    ((classify_device ⟨none, none, none, [], [], some [.dint 7]⟩).kind = "relay"
      ∧ (classify_device ⟨none, none, none, [], [], some [.dint 7]⟩).supports_dim = false
      ∧ ¬((classify_device ⟨none, none, none, [], [], some [.dint 6]⟩).kind = "relay"
          ∧ (classify_device ⟨none, none, none, [], [], some [.dint 6]⟩).supports_dim = false))
    ∧ devicePayloadOn (classify_device ⟨none, none, none, [], [], some [.dint 7]⟩) 0 =
        { emptyPayload with switchable := some true } :=
  ⟨⟨by decide, by decide, by decide⟩,
    (build_payload_intent_capability
      (classify_device ⟨none, none, none, [], [], some [.dint 7]⟩)
      (classify_device ⟨none, none, none, [], [], some [.dint 6]⟩) 0
      (by decide) (by decide) (by decide)).1⟩

/-- C4 counterexample: a broadcast off (fade 0) and a zone off issue
exactly one control call each — a single globally-built combined payload —
with no per-device call and hence no per-device classification, refuting
the claim that the payload is built per device after classifying it. -/
theorem broadcast_off_single_call_cex :
    all_off_calls 0 none =
      [ControlCall.broadcast ⟨some false, some 0, none, none, none⟩ none]
    ∧ zone_off_calls 1 0 = [ControlCall.zone 1 ⟨some false, some 0, none, none, none⟩]
    ∧ (all_off_calls 0 none).countP isDeviceCall = 0
    ∧ (all_off_calls 0 none).length = 1 := by
  decide

/-- C4 amended: a broadcast or zone off builds one combined payload that
simultaneously carries the switch-off component and the dim-to-zero
component (fade-aware when a positive fade is requested) and issues exactly
one broadcast/zone control call with it, never a per-device call. -/
theorem off_single_combined_payload (fade : Rat) (line : Option Int) (zid : Int) :
    all_off_calls fade line = [ControlCall.broadcast (combinedOffPayload fade) line]
    ∧ zone_off_calls zid fade = [ControlCall.zone zid (combinedOffPayload fade)]
    ∧ (combinedOffPayload fade).switchable = some false
    ∧ (fadeRequested fade = false → (combinedOffPayload fade).dimmable = some 0)
    ∧ (fadeRequested fade = true →
        (combinedOffPayload fade).dimmableWithFade = some (0, fade))
    ∧ (all_off_calls fade line).countP isDeviceCall = 0
    ∧ (zone_off_calls zid fade).countP isDeviceCall = 0 := by
  refine ⟨rfl, rfl, ?_, ?_, ?_, ?_, ?_⟩
  · rw [combinedOffPayload]
    split
    · rfl
    · rfl
  · intro hf
    rw [combinedOffPayload, hf]
    simp
  · intro hf
    rw [combinedOffPayload, hf]
    simp
  · rfl
  · rfl

/-- C4 amended witness: the combined-payload characterization evaluated at
a 2-second fade. -/
theorem off_single_combined_payload_witness :
    (fadeRequested 2 = true)
    ∧ (combinedOffPayload 2).dimmableWithFade = some (0, 2) :=
  ⟨by decide, ((off_single_combined_payload 2 none 1).2.2.2.2.1 (by decide))⟩

/-! Claim theorems about membership and scene resolution. -/

/-- C1: when a zone's trimmed, case-folded name is "broadcast", or any
target in its list has type "broadcast" or "all", membership resolution
returns the entire device directory — every directory id appears among the
members and every member record comes from the directory — regardless of
any explicit device-id or group-id targets in the list. -/
theorem zone_members_broadcast_dominates (tr : Transport) (zone : Zone)
    (devs : List Device) (hdir : tr.devicesResp = some devs)
    (hb : isBroadcastName zone.name = true
      ∨ ∃ t ∈ zone.targets, isBroadcastTarget t = true) :
    (∀ did : Int, (∃ d ∈ zone_members tr zone, d.id = some did) ↔
      ∃ d ∈ devs, d.id = some did)
    ∧ ∀ d ∈ zone_members tr zone, d ∈ devs := by
  have hflag : (zoneBuckets zone).2.2 = true := by
    rw [zoneBuckets_flag]
    rcases hb with h | ⟨t, ht, hbt⟩
    · rw [h]
      rfl
    · rw [List.any_eq_true.mpr ⟨t, ht, hbt⟩]
      exact Bool.or_true _
  have hdict : zoneMembersDict tr zone =
      membersLoop (zoneBuckets zone).1 (zoneBuckets zone).2.1 true devs [] := by
    rw [zoneMembersDict, hdir, hflag]
  have hperm : List.Perm (zone_members tr zone) ((zoneMembersDict tr zone).map Prod.snd) :=
    List.perm_insertionSort _ _
  have hinv : ∀ p ∈ membersLoop (zoneBuckets zone).1 (zoneBuckets zone).2.1 true devs [],
      p.2.id = some p.1 :=
    membersLoop_id_inv _ _ _ devs [] (by intro q hq; cases hq)
  constructor
  · intro did
    constructor
    · rintro ⟨d, hd, hid⟩
      have hd' : d ∈ (zoneMembersDict tr zone).map Prod.snd := hperm.mem_iff.mp hd
      rcases List.mem_map.mp hd' with ⟨p, hp, hpd⟩
      rw [hdict] at hp
      rcases membersLoop_val_mem _ _ true devs [] p hp with h | h
      · cases h
      · refine ⟨p.2, h, ?_⟩
        rw [hpd]
        exact hid
    · rintro ⟨d, hd, hid⟩
      have hk : did ∈ keysOf
          (membersLoop (zoneBuckets zone).1 (zoneBuckets zone).2.1 true devs []) :=
        (membersLoop_broadcast_keys _ _ devs [] did).mpr (Or.inr ⟨d, hd, hid⟩)
      rcases (mem_keysOf_iff _ _).mp hk with ⟨p, hp, hpk⟩
      refine ⟨p.2, ?_, ?_⟩
      · apply hperm.mem_iff.mpr
        apply List.mem_map.mpr
        refine ⟨p, ?_, rfl⟩
        rw [hdict]
        exact hp
      · rw [hinv p hp, hpk]
  · intro d hd
    have hd' : d ∈ (zoneMembersDict tr zone).map Prod.snd := hperm.mem_iff.mp hd
    rcases List.mem_map.mp hd' with ⟨p, hp, hpd⟩
    rw [hdict] at hp
    rcases membersLoop_val_mem _ _ true devs [] p hp with h | h
    · cases h
    · rw [← hpd]
      exact h

/-- C1 witness: a zone named " Broadcast " whose only target is explicit
device 2 still resolves to the whole two-device directory. -/
theorem zone_members_broadcast_dominates_witness :
    (fixTransportAB.devicesResp = some [fixDevA, fixDevB]
      ∧ isBroadcastName fixBroadcastZone.name = true)
    ∧ ((∀ did : Int,
          (∃ d ∈ zone_members fixTransportAB fixBroadcastZone, d.id = some did) ↔
            ∃ d ∈ [fixDevA, fixDevB], d.id = some did)
        ∧ ∀ d ∈ zone_members fixTransportAB fixBroadcastZone, d ∈ [fixDevA, fixDevB]) :=
  ⟨⟨rfl, by decide⟩,
    zone_members_broadcast_dominates fixTransportAB fixBroadcastZone [fixDevA, fixDevB]
      rfl (Or.inl (by decide))⟩

/-- C8: resolution output is deduplicated by device id — the target_devs
dict of zone_scene_numbers has pairwise-distinct keys and the member list
of zone_members has pairwise-distinct ids — and a device reachable both
through an explicit id target and through group membership keeps the
explicit-fetch detail record (the resolved record under its id is exactly
the detail response).  Idempotence holds definitionally: both resolvers are
pure functions of the zone and transport. -/
theorem resolution_dedup_prefers_detail (tr : Transport) (zone : Zone) (did : Int)
    (ddetail : Device) (hexp : did ∈ explicitIdsOf zone)
    (hfetch : tr.deviceResp did = some ddetail) :
    lookupIdx (resolveTargetDevs tr zone).1 did = some ddetail
    ∧ (keysOf (resolveTargetDevs tr zone).1).Nodup
    ∧ ((zone_members tr zone).map Device.id).Nodup := by
  have hexp' : did ∈ (zoneBuckets zone).1 := hexp
  have hfo : fetchOr tr did ((lookupIdx (directoryIndex tr) did).getD (stubDev did))
      = ddetail := by
    rw [fetchOr, hfetch]
  have hek : lookupIdx (explicitLoop tr (directoryIndex tr) (zoneBuckets zone).1 []).1 did
      = some ddetail := by
    rw [explicitLoop_lookup, if_pos hexp', hfo]
  have hnd1 : (keysOf (explicitLoop tr (directoryIndex tr) (zoneBuckets zone).1 []).1).Nodup :=
    nodupKeys_explicitLoop _ _ _ _ (by simp [keysOf])
  have hinv : ∀ p ∈ zoneMembersDict tr zone, p.2.id = some p.1 := by
    rw [zoneMembersDict]
    cases tr.devicesResp with
    | none =>
        intro p hp
        cases hp
    | some devs => exact membersLoop_id_inv _ _ _ devs [] (by intro q hq; cases hq)
  have hndk : (keysOf (zoneMembersDict tr zone)).Nodup := by
    rw [zoneMembersDict]
    cases tr.devicesResp with
    | none => simp [keysOf]
    | some devs => exact membersLoop_nodup_keys _ _ _ devs [] (by simp [keysOf])
  have hmapeq : ((zoneMembersDict tr zone).map Prod.snd).map Device.id
      = ((zoneMembersDict tr zone).map Prod.fst).map some := by
    rw [List.map_map, List.map_map]
    apply List.map_congr_left
    intro p hp
    exact hinv p hp
  have hnd2 : (((zoneMembersDict tr zone).map Prod.snd).map Device.id).Nodup := by
    rw [hmapeq]
    exact List.Nodup.map (Option.some_injective Int) hndk
  have hperm2 : List.Perm ((zone_members tr zone).map Device.id)
      (((zoneMembersDict tr zone).map Prod.snd).map Device.id) :=
    List.Perm.map Device.id (List.perm_insertionSort _ _)
  have hndzm : ((zone_members tr zone).map Device.id).Nodup :=
    (List.Perm.nodup_iff hperm2).mpr hnd2
  by_cases hcond : ((zoneBuckets zone).2.1 ≠ [] ∨ (zoneBuckets zone).2.2 = true)
  · rw [resolveTargetDevs, if_pos hcond]
    exact ⟨groupLoop_lookup_preserve _ _ _ _ _ _ _ hek,
      nodupKeys_groupLoop _ _ _ _ _ hnd1, hndzm⟩
  · rw [resolveTargetDevs, if_neg hcond]
    exact ⟨hek, hnd1, hndzm⟩

/-- C8 witness: device 1 is reachable both explicitly and through group 2
in the mixed zone; the resolved record under id 1 is the detail response,
keys are distinct, and the member ids are distinct. -/
theorem resolution_dedup_prefers_detail_witness :
    (1 ∈ explicitIdsOf fixDupZone
      ∧ fixDupTransport.deviceResp 1 = some fixDupDev1Detail)
    ∧ lookupIdx (resolveTargetDevs fixDupTransport fixDupZone).1 1 = some fixDupDev1Detail
    ∧ (keysOf (resolveTargetDevs fixDupTransport fixDupZone).1).Nodup
    ∧ ((zone_members fixDupTransport fixDupZone).map Device.id).Nodup :=
  ⟨⟨by decide, by decide⟩,
    resolution_dedup_prefers_detail fixDupTransport fixDupZone 1 fixDupDev1Detail
      (by decide) (by decide)⟩

/-- C9 counterexample: with the whole directory fetch failing but the
per-device detail endpoint alive, zone_scene_numbers on a zone with an
explicit device target returns [3], not the empty result set the claim
promises for a total directory-fetch failure. -/
theorem directory_failure_nonempty_scenes_cex :
    fixDirFailTransport.devicesResp = none
    ∧ zone_scene_numbers fixDirFailTransport fixDirFailZone = [3]
    ∧ zone_scene_numbers fixDirFailTransport fixDirFailZone ≠ [] := by
  refine ⟨rfl, by decide, by decide⟩

/-- C9 amended: transport failures are non-fatal and never propagate: on a
total directory-fetch failure zone_members returns the empty list while
zone_scene_numbers keeps resolving explicit device-id targets only (every
resolved entry is an explicit target); and an explicit target always
appears in the resolved dict, with a failed detail fetch falling back to
that device's directory record (or the bare id-only stub when the
directory has no record). -/
theorem resolution_failure_semantics (tr : Transport) (zone : Zone) (did : Int) :
    (tr.devicesResp = none →
      zone_members tr zone = []
      ∧ ∀ p ∈ (resolveTargetDevs tr zone).1, p.1 ∈ explicitIdsOf zone)
    ∧ (did ∈ explicitIdsOf zone →
        hasKey (resolveTargetDevs tr zone).1 did = true
        ∧ (tr.deviceResp did = none →
            lookupIdx (resolveTargetDevs tr zone).1 did =
              some ((lookupIdx (directoryIndex tr) did).getD (stubDev did)))) := by
  constructor
  · intro hfail
    have hidx : directoryIndex tr = [] := by
      rw [directoryIndex, hfail]
    constructor
    · have h1 : zoneMembersDict tr zone = [] := by
        rw [zoneMembersDict, hfail]
      rw [zone_members, h1]
      rfl
    · intro p hp
      have hkey : ∀ index : List (Int × Device), ∀ q,
          q ∈ (explicitLoop tr index (zoneBuckets zone).1 []).1 →
          q.1 ∈ (zoneBuckets zone).1 := by
        intro index q hq
        rcases explicitLoop_key_mem _ _ _ _ q hq with h | h
        · exact h
        · cases h
      by_cases hcond : ((zoneBuckets zone).2.1 ≠ [] ∨ (zoneBuckets zone).2.2 = true)
      · rw [resolveTargetDevs, if_pos hcond, hidx] at hp
        exact hkey [] p hp
      · rw [resolveTargetDevs, if_neg hcond, hidx] at hp
        exact hkey [] p hp
  · intro hdid
    have hdid' : did ∈ (zoneBuckets zone).1 := hdid
    have hek : lookupIdx (explicitLoop tr (directoryIndex tr) (zoneBuckets zone).1 []).1 did
        = some (fetchOr tr did ((lookupIdx (directoryIndex tr) did).getD (stubDev did))) := by
      rw [explicitLoop_lookup, if_pos hdid']
    have hlook : lookupIdx (resolveTargetDevs tr zone).1 did
        = some (fetchOr tr did ((lookupIdx (directoryIndex tr) did).getD (stubDev did))) := by
      by_cases hcond : ((zoneBuckets zone).2.1 ≠ [] ∨ (zoneBuckets zone).2.2 = true)
      · rw [resolveTargetDevs, if_pos hcond]
        exact groupLoop_lookup_preserve _ _ _ _ _ _ _ hek
      · rw [resolveTargetDevs, if_neg hcond]
        exact hek
    constructor
    · show (lookupIdx (resolveTargetDevs tr zone).1 did).isSome = true
      rw [hlook]
      rfl
    · intro hff
      rw [hlook, fetchOr, hff]

/-- C9 amended witness: with every request failing, the zone with explicit
target 1 yields no members, and the resolved record for id 1 is the bare
id-only stub. -/
theorem resolution_failure_semantics_witness :
    (fixAllFailTransport.devicesResp = none
      ∧ 1 ∈ explicitIdsOf fixDirFailZone
      ∧ fixAllFailTransport.deviceResp 1 = none)
    ∧ zone_members fixAllFailTransport fixDirFailZone = []
    ∧ lookupIdx (resolveTargetDevs fixAllFailTransport fixDirFailZone).1 1 =
        some ((lookupIdx (directoryIndex fixAllFailTransport) 1).getD (stubDev 1)) :=
  ⟨⟨rfl, by decide, rfl⟩,
    ((resolution_failure_semantics fixAllFailTransport fixDirFailZone 1).1 rfl).1,
    ((resolution_failure_semantics fixAllFailTransport fixDirFailZone 1).2 (by decide)).2 rfl⟩

/-- C3 counterexample: a zone whose only target is group 1, resolved over a
directory with one matching device, triggers a per-device detail fetch for
that group-resolved member: the detail-fetch trace of zone_scene_numbers
resolution is [5], not empty as the claim requires for group targets. -/
theorem group_target_triggers_detail_fetch_cex :
    fixGroupZone.targets = [TargetEntry.tdict (some "group") (some 1)]
    ∧ explicitIdsOf fixGroupZone = []
    ∧ (resolveTargetDevs fixGroupTransport fixGroupZone).2 = [5]
    ∧ (resolveTargetDevs fixGroupTransport fixGroupZone).2 ≠ [] := by
  refine ⟨rfl, by decide, by decide, by decide⟩

/-- C3 amended: in zone_scene_numbers the detail-fetch trace is exactly the
explicit device-id targets (one fetch per explicit target, in order)
followed by the group- or broadcast-eligible directory members whose ids
are not explicit targets (one fetch each); zone_members never performs a
detail fetch — it depends only on the directory response, not on the
per-device detail endpoint. -/
theorem detail_fetch_trace_characterization (tr tr2 : Transport) (zone : Zone)
    (hsame : tr.devicesResp = tr2.devicesResp) :
    (resolveTargetDevs tr zone).2 = explicitIdsOf zone ++ groupFetchIds tr zone
    ∧ zone_members tr zone = zone_members tr2 zone := by
  constructor
  · by_cases hcond : ((zoneBuckets zone).2.1 ≠ [] ∨ (zoneBuckets zone).2.2 = true)
    · rw [resolveTargetDevs, if_pos hcond, groupFetchIds, if_pos hcond]
      dsimp only
      rw [explicitLoop_trace]
      congr 1
      rw [groupLoop_trace _ _ _ _ _ (nodupKeys_directoryIndex tr)]
      congr 1
      apply List.filter_congr
      intro q hq
      rw [hasKey_explicitLoop_nil_base]
    · rw [resolveTargetDevs, if_neg hcond, groupFetchIds, if_neg hcond]
      rw [explicitLoop_trace, List.append_nil]
      rfl
  · rw [zone_members, zone_members, zoneMembersDict, zoneMembersDict, hsame]

/-- C3 amended witness: two transports sharing the same directory but
differing on the detail endpoint produce the same zone_members output, and
the trace equation holds on the mixed explicit-plus-group zone. -/
theorem detail_fetch_trace_characterization_witness :
    fixTransportAB.devicesResp = fixTransportABNoDetail.devicesResp
    ∧ (resolveTargetDevs fixTransportAB fixDupZone).2 =
        explicitIdsOf fixDupZone ++ groupFetchIds fixTransportAB fixDupZone
    ∧ zone_members fixTransportAB fixDupZone =
        zone_members fixTransportABNoDetail fixDupZone :=
  ⟨rfl,
    (detail_fetch_trace_characterization fixTransportAB fixTransportABNoDetail fixDupZone
      rfl).1,
    (detail_fetch_trace_characterization fixTransportAB fixTransportABNoDetail fixDupZone
      rfl).2⟩

end DaliCli
